import Mathlib

/-!
Shallow embedding of the `SQLite` wrapper class from the Notesnook
repository (the prepared-statement cache & query executor over an
encrypted embedded database engine).

The native engine (better-sqlite3-multiple-ciphers) is modelled as an
oracle (`Engine`): each native compilation attempt consumes an index
into the oracle; each compiled statement carries the outcome of its
`all`/`run` calls.  JavaScript `undefined`/`null`/`NaN` distinctions
that the source code branches on are modelled explicitly.  Thrown
JavaScript values carry an `isError` flag reflecting the source's
`instanceof Error` checks.  Maps (`Map`, `Record`) are association
lists keyed by the SQL text.
-/

namespace SQLite

/-- A thrown JavaScript value: `isError` is true when the value is an
`Error` instance (the source annotates the message only in that case). -/
structure JsErr where
  isError : Bool
  message : String
deriving DecidableEq, Repr

/-- Appends the SQL text to the message of an `Error` instance
(`ex.message` gains " (query: " ++ sql ++ ")"), and leaves non-`Error`
thrown values alone, as in the source's `instanceof Error` guards. -/
def annotateErr (e : JsErr) (sql : String) : JsErr :=
  if e.isError then { e with message := e.message ++ " (query: " ++ sql ++ ")" } else e

/-- The `changes` field of a better-sqlite3 run result, as the JS value
the source tests for: `changes !== undefined && changes !== null && !isNaN(changes)`. -/
inductive JsChanges where
  | num (n : Int)
  | nan
  | undef
  | null
deriving DecidableEq, Repr

/-- The `lastInsertRowid` field: the source distinguishes
`typeof lastInsertRowid === "bigint"` from a plain number, plus
`undefined`/`null`. -/
inductive JsRowid where
  | big (i : Int)
  | num (n : Int)
  | undef
  | null
deriving DecidableEq, Repr

/-- The `changes`/`lastInsertRowid` record returned by `Statement.run`. -/
structure RunInfo where
  changes : JsChanges
  lastInsertRowid : JsRowid
deriving DecidableEq, Repr

instance {ε α : Type} [DecidableEq ε] [DecidableEq α] : DecidableEq (Except ε α) :=
  fun x y =>
    match x, y with
    | Except.ok a, Except.ok b =>
      if h : a = b then isTrue (by rw [h]) else isFalse (fun hc => h (Except.ok.inj hc))
    | Except.error a, Except.error b =>
      if h : a = b then isTrue (by rw [h]) else isFalse (fun hc => h (Except.error.inj hc))
    | Except.ok _, Except.error _ => isFalse nofun
    | Except.error _, Except.ok _ => isFalse nofun

/-- A compiled statement handle.  `id` gives it an identity; `reader`
is better-sqlite3's flag for row-producing statements; `allResult` and
`runResult` are the oracle outcomes of executing it. -/
structure Stmt where
  id : Nat
  reader : Bool
  allResult : Except JsErr (List Nat)
  runResult : Except JsErr RunInfo
deriving DecidableEq, Repr

/-- Oracle for the native layer: `compile i sql` is the outcome of the
`i`-th native `sqlite.prepare` call (throw, a falsy/absent statement, or
a compiled statement).  Flaky compilation is modelled by letting the
outcome depend on the attempt index `i`. -/
structure Engine where
  compile : Nat → String → Except JsErr (Option Stmt)

/-- Association-list lookup (JS `Map.get` / `Record` indexing;
absent key = `undefined` = `none`). -/
def lookupA {α : Type} : List (String × α) → String → Option α
  | [], _ => none
  | (k', v) :: rest, k => if k' = k then some v else lookupA rest k

/-- Association-list insert/overwrite (JS `Map.set` / `Record` assignment). -/
def insertA {α : Type} : List (String × α) → String → α → List (String × α)
  | [], k, v => [(k, v)]
  | (k', v') :: rest, k, v =>
    if k' = k then (k, v) :: rest else (k', v') :: insertA rest k v

/-- The mutable fields of the `SQLite` class, plus `compileCount`, the
number of native compilation calls issued so far (it indexes the
`Engine.compile` oracle and makes "no recompilation" observable). -/
structure State where
  sqlite : Option Nat
  initialized : Bool
  preparedStatements : List (String × Stmt)
  retryCounter : List (String × Nat)
  extensionsLoaded : Bool
  compileCount : Nat
deriving DecidableEq, Repr

/-- The state built by the constructor. -/
def initialState : State :=
  { sqlite := none
    initialized := false
    preparedStatements := []
    retryCounter := []
    extensionsLoaded := false
    compileCount := 0 }

/-- Models `open(filePath)`: if a handle is already open it logs and returns
(no throw, nothing changed); otherwise it installs the new native
handle (`newHandle` stands for the handle the native constructor
returns for the path). -/
def openDb (st : State) (newHandle : Nat) : State :=
  match st.sqlite with
  | some _ => st
  | none => { st with sqlite := some newHandle }

/-- The error thrown by `prepare` when no handle is open. -/
def notInitialized : JsErr := ⟨true, "Database is not initialized."⟩

/-- Sentinel for fuel exhaustion in the model of the recursive retry;
`cMeasure_lt_seven` below shows it is never reached at the fuel `prepare` uses. -/
def outOfFuel : JsErr := ⟨false, "model: out of fuel"⟩

/-- Models `prepare(sql)`, one fuel unit per JavaScript-level invocation.

Mirrors the source line by line: throw if no handle; return a cache
hit; otherwise natively compile (consuming one oracle index).  On a
falsy compiled value return `undefined` without caching.  On success
cache the statement and set the retry counter to 0.  In the catch
block the JS comparison `this.retryCounter[sql] < 5` is false when the
entry is absent (`undefined < 5` is false), so only a present counter
`n < 5` triggers the recursive retry with counter `n + 1`
(`(this.retryCounter[sql] || 0) + 1`); otherwise the counter is reset
to 0 and the error is rethrown with the SQL text appended (for `Error`
instances). -/
def prepareAux (env : Engine) (sql : String) :
    Nat → State → Except JsErr (Option Stmt) × State
  | 0, st => (Except.error outOfFuel, st)
  | fuel + 1, st =>
    match st.sqlite with
    | none => (Except.error notInitialized, st)
    | some _ =>
      match lookupA st.preparedStatements sql with
      | some cached => (Except.ok (some cached), st)
      | none =>
        match env.compile st.compileCount sql with
        | Except.ok res =>
          let st1 := { st with compileCount := st.compileCount + 1 }
          match res with
          | none => (Except.ok none, st1)
          | some prepared =>
            (Except.ok (some prepared),
              { st1 with
                preparedStatements := insertA st1.preparedStatements sql prepared
                retryCounter := insertA st1.retryCounter sql 0 })
        | Except.error ex =>
          let st1 := { st with compileCount := st.compileCount + 1 }
          match lookupA st1.retryCounter sql with
          | some n =>
            if n < 5 then
              prepareAux env sql fuel
                { st1 with retryCounter := insertA st1.retryCounter sql (n + 1) }
            else
              (Except.error (annotateErr ex sql),
                { st1 with retryCounter := insertA st1.retryCounter sql 0 })
          | none =>
            (Except.error (annotateErr ex sql),
              { st1 with retryCounter := insertA st1.retryCounter sql 0 })

/-- Recursion-depth bound for `prepareAux`: the retry recursion only
happens from a present counter `n < 5`, moving it to `n + 1`. -/
def cMeasure : Option Nat → Nat
  | none => 0
  | some n => 6 - n

/-- Models `prepare(sql)`.  Fuel 7 always exceeds the recursion depth,
so the fuel sentinel is unreachable (see `cMeasure_lt_seven` below). -/
def prepare (env : Engine) (st : State) (sql : String) :
    Except JsErr (Option Stmt) × State :=
  prepareAux env sql 7 st

/-- Bind-parameter kinds accepted by `exec` (`SQLiteCompatibleType`). -/
inductive SQLiteCompatibleType where
  | num (n : Int)
  | str (s : String)
  | bytes (b : List Nat)
  | numArray (a : List Int)
  | bigint (i : Int)
  | null
deriving DecidableEq, Repr

/-- The normalized `QueryResult`: absent fields are `none`
(the bare `rows: []` result leaves both optional fields `undefined`). -/
structure QueryResult where
  rows : List Nat
  numAffectedRows : Option Int
  insertId : Option Int
deriving DecidableEq, Repr

/-- Computes `numAffectedRows`: present exactly when `changes` passed
`changes !== undefined && changes !== null && !isNaN(changes)`,
converted by `BigInt(changes)`. -/
def numAffected : JsChanges → Option Int
  | JsChanges.num n => some n
  | JsChanges.nan => none
  | JsChanges.undef => none
  | JsChanges.null => none

/-- Computes `insertId`: present exactly when `lastInsertRowid` is neither
`undefined` nor `null`; a bigint passes through, a number goes through
`BigInt(lastInsertRowid)` — both are the same unbounded integer here. -/
def insertIdOf : JsRowid → Option Int
  | JsRowid.big i => some i
  | JsRowid.num n => some n
  | JsRowid.undef => none
  | JsRowid.null => none

/-- The two fixed native search extensions loaded in the finally block. -/
def extensionNames : List String := ["sqlite-better-trigram", "sqlite3-fts5-html"]

/-- Models `isDatabaseReady()`: false with no handle; otherwise whether the
native `prepare("SELECT 1;").run()` probe succeeds right now, an
external fact supplied as `ready` (it flips when the collaborator
applies the decryption key). -/
def isDatabaseReady (st : State) (ready : Bool) : Bool :=
  match st.sqlite with
  | none => false
  | some _ => ready

/-- The finally block of `exec`: if extensions are not yet loaded and
the readiness probe succeeds, load both extensions and set the flag.
Returns the new state and the list of extensions loaded by this call. -/
def execFinally (st : State) (ready : Bool) : State × List String :=
  if !st.extensionsLoaded && isDatabaseReady st ready then
    ({ st with extensionsLoaded := true }, extensionNames)
  else (st, [])

/-- Everything one `exec` call produces: the returned value or thrown
error, the state afterwards, and the names of extensions loaded during
the call (the observable `load` side effects). -/
structure ExecResult where
  result : Except JsErr QueryResult
  state : State
  loads : List String
deriving Repr

/-- Models `exec(sql, parameters)`.

`await this.prepare(sql)` and the the falsy-statement guard
guard sit before the `try`, so a thrown prepare error or an absent
statement exits without running the finally block.  Inside the try the
reader branch returns the produced rows with both optional fields
absent; the writer branch runs the statement and normalizes
`changes`/`lastInsertRowid`.  The catch appends the SQL text to `Error`
messages and rethrows; the finally block (`execFinally`) runs on both
the normal and the throwing exit of the try. -/
def exec (env : Engine) (ready : Bool) (st : State) (sql : String)
    (_parameters : List SQLiteCompatibleType) : ExecResult :=
  match prepare env st sql with
  | (Except.error e, st') => ⟨Except.error e, st', []⟩
  | (Except.ok none, st') => ⟨Except.ok ⟨[], none, none⟩, st', []⟩
  | (Except.ok (some prepared), st') =>
    let body : Except JsErr QueryResult :=
      if prepared.reader then
        match prepared.allResult with
        | Except.ok rows => Except.ok ⟨rows, none, none⟩
        | Except.error e => Except.error (annotateErr e sql)
      else
        match prepared.runResult with
        | Except.ok info =>
          Except.ok ⟨[], numAffected info.changes, insertIdOf info.lastInsertRowid⟩
        | Except.error e => Except.error (annotateErr e sql)
    let fin := execFinally st' ready
    ⟨body, fin.1, fin.2⟩

/-- Models `run(sql, parameters)`: throws when no database is open, otherwise
delegates to `exec`. -/
def run (env : Engine) (ready : Bool) (st : State) (sql : String)
    (parameters : List SQLiteCompatibleType) : ExecResult :=
  match st.sqlite with
  | none => ⟨Except.error ⟨true, "No database is not opened."⟩, st, []⟩
  | some _ => exec env ready st sql parameters

/-- Models `close()`: no-op without a handle; otherwise clear the statement
cache and release the handle.  `retryCounter` and `extensionsLoaded`
are not touched. -/
def close (st : State) : State :=
  match st.sqlite with
  | none => st
  | some _ => { st with preparedStatements := [], sqlite := none }

/-- The options object `delete` passes to `fs.rm`. -/
structure RmOptions where
  force : Bool
  maxRetries : Nat
  retryDelay : Nat
deriving DecidableEq, Repr

/-- The literal options passed by `delete`: force true, maxRetries 5,
retryDelay 500. -/
def deleteRmOptions : RmOptions := ⟨true, 5, 500⟩

/-- Modelled from the spec: Node's `fs/promises.rm` retry loop, which
is platform code not in this repository.  `locked i` says whether the
file is still lock-contended at attempt `i`.  `rmRun locked delay a r`
attempts removal starting at attempt `a` with `r` retries left,
waiting `delay` between attempts; it returns the outcome and the list
of delays waited. -/
def rmRun (locked : Nat → Bool) (delay : Nat) :
    Nat → Nat → Except JsErr Unit × List Nat
  | a, 0 =>
    if locked a then (Except.error ⟨true, "EBUSY: resource busy or locked"⟩, [])
    else (Except.ok (), [])
  | a, r + 1 =>
    if locked a then
      let rest := rmRun locked delay (a + 1) r
      (rest.1, delay :: rest.2)
    else (Except.ok (), [])

/-- Modelled from the spec: `fs.rm(filePath, opts)` with bounded retries. -/
def rm (locked : Nat → Bool) (opts : RmOptions) : Except JsErr Unit × List Nat :=
  rmRun locked opts.retryDelay 0 opts.maxRetries

/-- Models `delete(filePath)`: it awaits `close()` first, then calls
`fs.rm(filePath, ...)` with `deleteRmOptions`. -/
def deleteDb (locked : Nat → Bool) (st : State) :
    State × (Except JsErr Unit × List Nat) :=
  let st' := close st
  (st', rm locked deleteRmOptions)


/-! ## Helper lemmas about the map operations -/

theorem lookupA_insertA_same {α : Type} (m : List (String × α)) (k : String) (v : α) :
    lookupA (insertA m k v) k = some v := by
  induction m with
  | nil => simp [insertA, lookupA]
  | cons hd tl ih =>
    obtain ⟨k', v'⟩ := hd
    by_cases h : k' = k
    · simp [insertA, h, lookupA]
    · simp [insertA, h, lookupA, ih]

theorem mem_keys_insertA {α : Type} (m : List (String × α)) (k x : String) (v : α) :
    x ∈ (insertA m k v).map Prod.fst ↔ x ∈ m.map Prod.fst ∨ x = k := by
  induction m with
  | nil => simp [insertA]
  | cons hd tl ih =>
    obtain ⟨k', v'⟩ := hd
    by_cases h : k' = k
    · subst h
      have hrw : insertA ((k', v') :: tl) k' v = (k', v) :: tl := by simp [insertA]
      rw [hrw]
      simp only [List.map_cons, List.mem_cons]
      tauto
    · simp only [insertA, if_neg h, List.map_cons, List.mem_cons, ih]
      tauto

/-- The key-uniqueness invariant on the cache: at most one entry per
distinct SQL string. -/
def keysNodup {α : Type} (m : List (String × α)) : Prop :=
  (m.map Prod.fst).Nodup

instance {α : Type} (m : List (String × α)) : Decidable (keysNodup m) := by
  unfold keysNodup; infer_instance

theorem keysNodup_insertA {α : Type} (m : List (String × α)) (k : String) (v : α)
    (h : keysNodup m) : keysNodup (insertA m k v) := by
  induction m with
  | nil => simp [insertA, keysNodup]
  | cons hd tl ih =>
    obtain ⟨k', v'⟩ := hd
    simp only [keysNodup, List.map_cons, List.nodup_cons] at h
    by_cases hk : k' = k
    · subst hk
      have hrw : insertA ((k', v') :: tl) k' v = (k', v) :: tl := by simp [insertA]
      unfold keysNodup
      rw [hrw]
      simp only [List.map_cons, List.nodup_cons]
      exact h
    · have htl := ih h.2
      simp only [keysNodup, insertA, if_neg hk, List.map_cons, List.nodup_cons]
      refine ⟨fun hmem => ?_, htl⟩
      rcases (mem_keys_insertA tl k k' v).mp hmem with h1 | h2
      · exact h.1 h1
      · exact hk h2

/-! ## Helper lemmas about `prepareAux` -/

theorem cMeasure_lt_seven (c : Option Nat) : cMeasure c < 7 := by
  cases c with
  | none => simp [cMeasure]
  | some n => simp only [cMeasure]; omega

/-- The SQL-indexed recursion of `prepare` never touches the handle, the
`initialized` field, or the extension flag. -/
theorem prepareAux_preserves (env : Engine) (sql : String) :
    ∀ (f : Nat) (st : State),
      (prepareAux env sql f st).2.sqlite = st.sqlite ∧
      (prepareAux env sql f st).2.extensionsLoaded = st.extensionsLoaded ∧
      (prepareAux env sql f st).2.initialized = st.initialized := by
  intro f
  induction f with
  | zero => intro st; simp [prepareAux]
  | succ f ih =>
    intro st
    simp only [prepareAux]
    cases hs : st.sqlite with
    | none => simp [hs]
    | some hnd =>
      cases hc : lookupA st.preparedStatements sql with
      | some cached => simp [hs]
      | none =>
        cases hcomp : env.compile st.compileCount sql with
        | ok res =>
          cases res with
          | none => simp [hs]
          | some prepared => simp [hs]
        | error ex =>
          cases hr : lookupA st.retryCounter sql with
          | some n =>
            by_cases hn : n < 5
            · simp only [if_pos hn]
              simpa [hs] using ih _
            · simp [if_neg hn, hs]
          | none => simp [hs]

/-- Successful preparation caches exactly the returned statement; the
statement came from the cache or from a successful native compilation;
the handle must have been open; key-uniqueness of the cache is kept. -/
theorem prepareAux_ok_some (env : Engine) (sql : String) :
    ∀ (f : Nat) (st st' : State) (p : Stmt),
      prepareAux env sql f st = (Except.ok (some p), st') →
      lookupA st'.preparedStatements sql = some p ∧
      st.sqlite ≠ none ∧
      (lookupA st.preparedStatements sql = some p ∨
        ∃ i, env.compile i sql = Except.ok (some p)) ∧
      (keysNodup st.preparedStatements → keysNodup st'.preparedStatements) := by
  intro f
  induction f with
  | zero =>
    intro st st' p h
    simp [prepareAux] at h
  | succ f ih =>
    intro st st' p h
    simp only [prepareAux] at h
    cases hs : st.sqlite with
    | none => rw [hs] at h; simp at h
    | some hnd =>
      rw [hs] at h
      cases hc : lookupA st.preparedStatements sql with
      | some cached =>
        rw [hc] at h
        simp only [Prod.mk.injEq, Except.ok.injEq, Option.some.injEq] at h
        obtain ⟨h1, h2⟩ := h
        subst h2
        subst h1
        exact ⟨hc, by simp [hs], Or.inl rfl, fun hn => hn⟩
      | none =>
        rw [hc] at h
        cases hcomp : env.compile st.compileCount sql with
        | ok res =>
          rw [hcomp] at h
          cases res with
          | none => simp at h
          | some prepared =>
            simp only [Prod.mk.injEq, Except.ok.injEq, Option.some.injEq] at h
            obtain ⟨h1, h2⟩ := h
            subst h1
            refine ⟨?_, by simp [hs], Or.inr ⟨st.compileCount, hcomp⟩, fun hn => ?_⟩
            · rw [← h2]
              exact lookupA_insertA_same _ _ _
            · rw [← h2]
              exact keysNodup_insertA _ _ _ hn
        | error ex =>
          rw [hcomp] at h
          cases hr : lookupA st.retryCounter sql with
          | some n =>
            rw [hr] at h
            by_cases hn : n < 5
            · simp only [if_pos hn] at h
              obtain ⟨g1, g2, g3, g4⟩ := ih _ _ _ h
              refine ⟨g1, by simp [hs], Or.inr ?_, g4⟩
              rcases g3 with g3l | g3r
              · have g3l' : lookupA st.preparedStatements sql = some p := g3l
                rw [hc] at g3l'
                cases g3l'
              · exact g3r
            · simp [if_neg hn] at h
          | none => rw [hr] at h; simp at h

/-- With an open handle and enough fuel, every error `prepare` surfaces
is a native compilation error with the SQL text annotation applied. -/
theorem prepareAux_error_annotated (env : Engine) (sql : String) (hnd : Nat) :
    ∀ (f : Nat) (st st' : State) (e : JsErr),
      st.sqlite = some hnd →
      cMeasure (lookupA st.retryCounter sql) < f →
      prepareAux env sql f st = (Except.error e, st') →
      ∃ i ex, env.compile i sql = Except.error ex ∧ e = annotateErr ex sql := by
  intro f
  induction f with
  | zero =>
    intro st st' e hs hf h
    omega
  | succ f ih =>
    intro st st' e hs hf h
    simp only [prepareAux] at h
    rw [hs] at h
    cases hc : lookupA st.preparedStatements sql with
    | some cached => rw [hc] at h; simp at h
    | none =>
      rw [hc] at h
      cases hcomp : env.compile st.compileCount sql with
      | ok res =>
        rw [hcomp] at h
        cases res with
        | none => simp at h
        | some prepared => simp at h
      | error ex =>
        rw [hcomp] at h
        cases hr : lookupA st.retryCounter sql with
        | some n =>
          rw [hr] at h
          by_cases hn : n < 5
          · simp only [if_pos hn] at h
            refine ih _ _ _ (by simp [hs]) ?_ h
            have : lookupA (insertA st.retryCounter sql (n + 1)) sql = some (n + 1) :=
              lookupA_insertA_same _ _ _
            rw [hr] at hf
            simp only [this, cMeasure]
            simp only [cMeasure] at hf
            omega
          · simp only [if_neg hn, Prod.mk.injEq, Except.error.injEq] at h
            exact ⟨st.compileCount, ex, hcomp, h.1.symm⟩
        | none =>
          rw [hr] at h
          simp only [Prod.mk.injEq, Except.error.injEq] at h
          exact ⟨st.compileCount, ex, hcomp, h.1.symm⟩

/-- A cache hit returns the cached statement and changes nothing. -/
theorem prepareAux_cache_hit (env : Engine) (sql : String) (f : Nat) (st : State)
    (hnd : Nat) (p : Stmt) (hs : st.sqlite = some hnd)
    (hc : lookupA st.preparedStatements sql = some p) :
    prepareAux env sql (f + 1) st = (Except.ok (some p), st) := by
  simp [prepareAux, hs, hc]

/-- A cache hit at the fuel `prepare` actually uses. -/
theorem prepare_cache_hit (env : Engine) (sql : String) (st : State)
    (hnd : Nat) (p : Stmt) (hs : st.sqlite = some hnd)
    (hc : lookupA st.preparedStatements sql = some p) :
    prepare env st sql = (Except.ok (some p), st) :=
  prepareAux_cache_hit env sql 6 st hnd p hs hc

/-- Unfolds `exec` once statement resolution has succeeded with a
statement: the try body runs and the finally block decides the
extension side effects. -/
theorem exec_of_prepare_some (env : Engine) (ready : Bool) (st : State) (sql : String)
    (ps : List SQLiteCompatibleType) (p : Stmt) (st₁ : State)
    (h : prepare env st sql = (Except.ok (some p), st₁)) :
    exec env ready st sql ps =
      ⟨(if p.reader then
          match p.allResult with
          | Except.ok rows => Except.ok ⟨rows, none, none⟩
          | Except.error e => Except.error (annotateErr e sql)
        else
          match p.runResult with
          | Except.ok info =>
            Except.ok ⟨[], numAffected info.changes, insertIdOf info.lastInsertRowid⟩
          | Except.error e => Except.error (annotateErr e sql)),
        (execFinally st₁ ready).1, (execFinally st₁ ready).2⟩ := by
  simp only [exec]
  rw [h]

/-- Unfolds `exec` when statement resolution throws: the error
propagates as-is and the finally block never runs. -/
theorem exec_of_prepare_error (env : Engine) (ready : Bool) (st : State) (sql : String)
    (ps : List SQLiteCompatibleType) (e : JsErr) (st₁ : State)
    (h : prepare env st sql = (Except.error e, st₁)) :
    exec env ready st sql ps = ⟨Except.error e, st₁, []⟩ := by
  simp only [exec]
  rw [h]

/-- Unfolds `exec` in the defensive no-statement case: empty rows, no
counts, and the finally block never runs. -/
theorem exec_of_prepare_none (env : Engine) (ready : Bool) (st : State) (sql : String)
    (ps : List SQLiteCompatibleType) (st₁ : State)
    (h : prepare env st sql = (Except.ok none, st₁)) :
    exec env ready st sql ps = ⟨Except.ok ⟨[], none, none⟩, st₁, []⟩ := by
  simp only [exec]
  rw [h]

/-- Runs a sequence of `exec` calls on the same SQL text; the `i`-th
call sees readiness `rs.get i` (whether the decryption key has been
applied by then).  Returns the final state and the per-call lists of
loaded extensions. -/
def execTrace (env : Engine) (sql : String) (ps : List SQLiteCompatibleType) :
    State → List Bool → State × List (List String)
  | st, [] => (st, [])
  | st, r :: rs =>
    let e := exec env r st sql ps
    let rest := execTrace env sql ps e.state rs
    (rest.1, e.loads :: rest.2)

/-- The extension-load events the specification predicts for a call
sequence: nothing while the flag is set or readiness is false, both
extensions at the first ready call with the flag clear, nothing after. -/
def expectedLoads : Bool → List Bool → List (List String)
  | _, [] => []
  | loaded, r :: rs =>
    (if loaded then [] else if r then extensionNames else []) ::
      expectedLoads (loaded || r) rs

/-- Trace behaviour of the deferred extension loading when the SQL text
is cached (every call reaches the finally block): the load events are
exactly `expectedLoads`, and the final flag records whether any call
saw the database ready. -/
theorem execTrace_cached (env : Engine) (sql : String) (ps : List SQLiteCompatibleType)
    (hnd : Nat) (p : Stmt) :
    ∀ (rs : List Bool) (st : State),
      st.sqlite = some hnd →
      lookupA st.preparedStatements sql = some p →
      (execTrace env sql ps st rs).2 = expectedLoads st.extensionsLoaded rs ∧
      (execTrace env sql ps st rs).1.extensionsLoaded = (st.extensionsLoaded || rs.any id) := by
  intro rs
  induction rs with
  | nil =>
    intro st hs hc
    simp [execTrace, expectedLoads]
  | cons r rs ih =>
    intro st hs hc
    have hprep := prepare_cache_hit env sql st hnd p hs hc
    have hexec := exec_of_prepare_some env r st sql ps p st hprep
    cases hE : st.extensionsLoaded with
    | true =>
      have hfin : execFinally st r = (st, []) := by
        simp [execFinally, hE]
      have hrec := ih st hs hc
      rw [hE] at hrec
      simp only [execTrace, hexec, hfin, expectedLoads, hE, List.any_cons]
      simp [hrec.1, hrec.2]
    | false =>
      cases r with
      | false =>
        have hfin : execFinally st false = (st, []) := by
          simp [execFinally, isDatabaseReady, hs]
        have hrec := ih st hs hc
        rw [hE] at hrec
        simp only [execTrace, hexec, hfin, expectedLoads, hE, List.any_cons]
        simp [hrec.1, hrec.2]
      | true =>
        have hfin : execFinally st true =
            ({ st with extensionsLoaded := true }, extensionNames) := by
          simp [execFinally, isDatabaseReady, hs, hE]
        have hrec := ih { st with extensionsLoaded := true } (by simpa using hs)
          (by simpa using hc)
        simp only [execTrace, hexec, hfin, expectedLoads, hE, List.any_cons]
        simp only [show ({ st with extensionsLoaded := true } : State).extensionsLoaded = true
          from rfl] at hrec
        simp [hrec.1, hrec.2]

/-- Once the extension flag is set, an `exec` call loads nothing and
leaves the flag set, whatever the engine does. -/
theorem exec_loads_of_flag (env : Engine) (ready : Bool) (st : State) (sql : String)
    (ps : List SQLiteCompatibleType) (hE : st.extensionsLoaded = true) :
    (exec env ready st sql ps).loads = [] ∧
    (exec env ready st sql ps).state.extensionsLoaded = true := by
  rcases hres : prepare env st sql with ⟨r, st₁⟩
  have hE1 : st₁.extensionsLoaded = true := by
    have h2 : (prepare env st sql).2.extensionsLoaded = st.extensionsLoaded :=
      (prepareAux_preserves env sql 7 st).2.1
    rw [hres] at h2
    exact h2.trans hE
  cases r with
  | error e =>
    rw [exec_of_prepare_error env ready st sql ps e st₁ hres]
    exact ⟨rfl, hE1⟩
  | ok o =>
    cases o with
    | none =>
      rw [exec_of_prepare_none env ready st sql ps st₁ hres]
      exact ⟨rfl, hE1⟩
    | some p =>
      rw [exec_of_prepare_some env ready st sql ps p st₁ hres]
      have hfin : execFinally st₁ ready = (st₁, []) := by
        simp [execFinally, hE1]
      simp [hfin, hE1]

/-! ## Claim C1 -/

/-- An engine whose every compilation attempt throws an `Error`. -/
def c1Env : Engine := ⟨fun _ _ => Except.error ⟨true, "transient native failure"⟩⟩

/-- A freshly constructed wrapper with an open handle (no retry-counter
entry exists yet for any SQL text). -/
def c1St : State := openDb initialState 1

/-- C1: the claim says a prepare whose compilation fails on every
attempt performs exactly 5 retries before surfacing the error.  The
code disagrees on a fresh SQL text: with no counter entry,
`this.retryCounter[sql] < 5` is `undefined < 5`, which is false in
JavaScript, so the error surfaces after a single compilation attempt
(`compileCount` goes from 0 to 1: zero retries), the counter is reset
to 0, and only from then on (counter present) does a failing prepare
perform 5 retries (6 attempts, `compileCount` 1 to 7).  This
contradicts the code's own comment ("retry at least 5 times before
giving up"), so the code, not the claim, is wrong. -/
theorem c1_retry_bound_fresh_text_zero_retries :
    (prepare c1Env c1St "S").1 =
      Except.error ⟨true, "transient native failure (query: S)"⟩ ∧
    (prepare c1Env c1St "S").2.compileCount = 1 ∧
    lookupA (prepare c1Env c1St "S").2.retryCounter "S" = some 0 ∧
    (prepare c1Env (prepare c1Env c1St "S").2 "S").1 =
      Except.error ⟨true, "transient native failure (query: S)"⟩ ∧
    (prepare c1Env (prepare c1Env c1St "S").2 "S").2.compileCount = 7 ∧
    lookupA (prepare c1Env (prepare c1Env c1St "S").2 "S").2.retryCounter "S" = some 0 :=
  ⟨rfl, rfl, rfl, rfl, rfl, rfl⟩

/-! ## Claim C2 -/

/-- An engine whose every compilation attempt throws an `Error`. -/
def c2Env : Engine := ⟨fun _ _ => Except.error ⟨true, "boom"⟩⟩

/-- A freshly opened wrapper. -/
def c2St : State := openDb initialState 1

/-- C2 fails as stated: when `prepare` throws inside `exec`, the call
exits before the `try`, so the finally block is skipped.  Here the
extensions flag is clear and the readiness probe would report the
database queryable (both before the call and at exit), yet no
extension is loaded and the flag stays false. -/
theorem c2_counterexample_finally_skipped_on_prepare_throw :
    c2St.extensionsLoaded = false ∧
    isDatabaseReady c2St true = true ∧
    (exec c2Env true c2St "S" []).result = Except.error ⟨true, "boom (query: S)"⟩ ∧
    (exec c2Env true c2St "S" []).loads = [] ∧
    (exec c2Env true c2St "S" []).state.extensionsLoaded = false ∧
    isDatabaseReady (exec c2Env true c2St "S" []).state true = true :=
  ⟨rfl, rfl, rfl, rfl, rfl, rfl⟩

/-- C2 (amended): for every `exec` call in which statement resolution
succeeds with a statement, on every exit path of the execution phase
(normal return or thrown execution error — the conclusion does not
depend on the try body's outcome), if the flag is not yet set and the
readiness probe reports the database queryable, both fixed search
extensions are loaded and the flag is set; otherwise nothing is loaded
and the state is unchanged.  Calls in which `prepare` throws or yields
no statement skip the probe entirely (see the counterexample). -/
theorem c2_amended_finally_after_resolution (env : Engine) (ready : Bool) (st : State)
    (sql : String) (ps : List SQLiteCompatibleType) (p : Stmt) (st₁ : State)
    (h : prepare env st sql = (Except.ok (some p), st₁)) :
    ((!st₁.extensionsLoaded && isDatabaseReady st₁ ready) = true →
      (exec env ready st sql ps).loads = extensionNames ∧
      (exec env ready st sql ps).state.extensionsLoaded = true) ∧
    ((!st₁.extensionsLoaded && isDatabaseReady st₁ ready) = false →
      (exec env ready st sql ps).loads = [] ∧
      (exec env ready st sql ps).state = st₁) := by
  rw [exec_of_prepare_some env ready st sql ps p st₁ h]
  constructor
  · intro hcond
    simp [execFinally, hcond]
  · intro hcond
    simp [execFinally, hcond]

/-- A reader statement used as a cached-statement witness. -/
def c2Stmt : Stmt := ⟨3, true, Except.ok [], Except.ok ⟨JsChanges.undef, JsRowid.undef⟩⟩

/-- A state whose cache already holds `c2Stmt` for the text "S". -/
def c2CachedSt : State :=
  { sqlite := some 1
    initialized := false
    preparedStatements := [("S", c2Stmt)]
    retryCounter := []
    extensionsLoaded := false
    compileCount := 0 }

theorem c2_amended_finally_after_resolution_witness :
    prepare c2Env c2CachedSt "S" = (Except.ok (some c2Stmt), c2CachedSt) ∧
    (((!c2CachedSt.extensionsLoaded && isDatabaseReady c2CachedSt true) = true →
      (exec c2Env true c2CachedSt "S" []).loads = extensionNames ∧
      (exec c2Env true c2CachedSt "S" []).state.extensionsLoaded = true) ∧
    ((!c2CachedSt.extensionsLoaded && isDatabaseReady c2CachedSt true) = false →
      (exec c2Env true c2CachedSt "S" []).loads = [] ∧
      (exec c2Env true c2CachedSt "S" []).state = c2CachedSt)) :=
  ⟨rfl, c2_amended_finally_after_resolution c2Env true c2CachedSt "S" [] c2Stmt c2CachedSt rfl⟩

/-! ## Claim C4 -/

/-- C4: after a successful `prepare(sql)`, preparing the same text
again on the same connection returns the identical compiled-statement
object and leaves the whole state — in particular `compileCount` —
unchanged: no recompilation.  Key-uniqueness of the cache (at most one
compiled form per distinct SQL string) is preserved. -/
theorem c4_prepare_cache_identity (env : Engine) (st : State) (sql : String) (p : Stmt)
    (st₁ : State) (h : prepare env st sql = (Except.ok (some p), st₁)) :
    prepare env st₁ sql = (Except.ok (some p), st₁) ∧
    (keysNodup st.preparedStatements → keysNodup st₁.preparedStatements) := by
  obtain ⟨g1, g2, g3, g4⟩ := prepareAux_ok_some env sql 7 st st₁ p h
  have h' : prepareAux env sql 7 st = (Except.ok (some p), st₁) := h
  have hsq : st₁.sqlite = st.sqlite := by
    have hp := (prepareAux_preserves env sql 7 st).1
    rw [h'] at hp
    exact hp
  rcases hx : st.sqlite with _ | hnd
  · exact absurd hx g2
  · exact ⟨prepare_cache_hit env sql st₁ hnd p (hsq.trans hx) g1, g4⟩

/-- A writer statement compiled by the witness engine. -/
def c4Stmt : Stmt := ⟨5, false, Except.ok [], Except.ok ⟨JsChanges.num 2, JsRowid.num 10⟩⟩

/-- An engine that compiles successfully on every attempt. -/
def c4Env : Engine := ⟨fun _ _ => Except.ok (some c4Stmt)⟩

/-- A freshly opened wrapper. -/
def c4St : State := openDb initialState 1

/-- The state after the first successful prepare of "S". -/
def c4St1 : State :=
  { sqlite := some 1
    initialized := false
    preparedStatements := [("S", c4Stmt)]
    retryCounter := [("S", 0)]
    extensionsLoaded := false
    compileCount := 1 }

theorem c4_prepare_cache_identity_witness :
    prepare c4Env c4St "S" = (Except.ok (some c4Stmt), c4St1) ∧
    (prepare c4Env c4St1 "S" = (Except.ok (some c4Stmt), c4St1) ∧
      (keysNodup c4St.preparedStatements → keysNodup c4St1.preparedStatements)) :=
  ⟨rfl, c4_prepare_cache_identity c4Env c4St "S" c4Stmt c4St1 rfl⟩

/-! ## Claim C7 -/

/-- C7: calling `open` with a handle already open does not throw (the
model never throws here: the source only logs) and leaves the handle
and every other field — statement cache, retry counters, extension
flag — unchanged. -/
theorem c7_open_idempotent (st : State) (hnd : Nat) (hs : st.sqlite = some hnd)
    (newHandle : Nat) : openDb st newHandle = st := by
  simp [openDb, hs]

theorem c7_open_idempotent_witness :
    (openDb initialState 1).sqlite = some 1 ∧
    openDb (openDb initialState 1) 2 = openDb initialState 1 :=
  ⟨rfl, c7_open_idempotent (openDb initialState 1) 1 rfl 2⟩

/-! ## Claim C3 -/

/-- C3: with the extension flag initially clear and the statement
cached (so every call reaches the finally block), the per-call
extension-load events are exactly `expectedLoads false rs`: no load
while the readiness probe reports false, both fixed extensions at the
first call whose probe succeeds, and no load on any later call; the
final flag is true iff some call saw the database ready, so the flag
is false until the database is first confirmed queryable and flips to
true exactly once. -/
theorem c3_extension_load_once (env : Engine) (sql : String)
    (ps : List SQLiteCompatibleType) (hnd : Nat) (p : Stmt) (rs : List Bool)
    (st : State) (hfl : st.extensionsLoaded = false) (hs : st.sqlite = some hnd)
    (hc : lookupA st.preparedStatements sql = some p) :
    (execTrace env sql ps st rs).2 = expectedLoads false rs ∧
    (execTrace env sql ps st rs).1.extensionsLoaded = rs.any id := by
  have h := execTrace_cached env sql ps hnd p rs st hs hc
  rw [hfl] at h
  simpa using h

/-- A reader statement cached for the C3 witness. -/
def c3Stmt : Stmt := ⟨2, true, Except.ok [7], Except.ok ⟨JsChanges.undef, JsRowid.undef⟩⟩

/-- An engine that is never consulted (the statement is cached). -/
def c3Env : Engine := ⟨fun _ _ => Except.error ⟨true, "unused"⟩⟩

/-- A wrapper state with "Q" cached and the extension flag clear. -/
def c3St : State :=
  { sqlite := some 1
    initialized := false
    preparedStatements := [("Q", c3Stmt)]
    retryCounter := []
    extensionsLoaded := false
    compileCount := 0 }

theorem c3_extension_load_once_witness :
    c3St.extensionsLoaded = false ∧
    expectedLoads false [false, false, true, true] = [[], [], extensionNames, []] ∧
    ((execTrace c3Env "Q" [] c3St [false, false, true, true]).2 =
        expectedLoads false [false, false, true, true] ∧
      (execTrace c3Env "Q" [] c3St [false, false, true, true]).1.extensionsLoaded =
        ([false, false, true, true].any id)) :=
  ⟨rfl, rfl,
    c3_extension_load_once c3Env "Q" [] 1 c3Stmt [false, false, true, true] c3St rfl rfl rfl⟩

/-! ## Claim C5 -/

/-- C5: for a successful `exec` whose statement resolves, a reader
yields exactly the produced rows with both the affected-count and the
insert-id fields absent; a writer yields an empty row sequence with
the affected-count computed by `numAffected`, which is `some c`
exactly when the engine reported a defined, non-NaN numeric change
count `c` (as an unbounded integer). -/
theorem c5_result_shape_normalization (env : Engine) (ready : Bool) (st : State)
    (sql : String) (ps : List SQLiteCompatibleType) (p : Stmt) (st₁ : State)
    (h : prepare env st sql = (Except.ok (some p), st₁)) :
    (∀ rows, p.reader = true → p.allResult = Except.ok rows →
      (exec env ready st sql ps).result = Except.ok ⟨rows, none, none⟩) ∧
    (∀ info, p.reader = false → p.runResult = Except.ok info →
      (exec env ready st sql ps).result =
        Except.ok ⟨[], numAffected info.changes, insertIdOf info.lastInsertRowid⟩) ∧
    (∀ ch c, numAffected ch = some c ↔ ch = JsChanges.num c) := by
  rw [exec_of_prepare_some env ready st sql ps p st₁ h]
  refine ⟨?_, ?_, ?_⟩
  · intro rows hr ha
    simp [hr, ha]
  · intro info hr hrun
    simp [hr, hrun]
  · intro ch c
    cases ch <;> simp [numAffected]

/-- A reader statement producing rows 10 and 20. -/
def c5Stmt : Stmt := ⟨4, true, Except.ok [10, 20], Except.ok ⟨JsChanges.num 0, JsRowid.undef⟩⟩

/-- An engine that is never consulted (the statement is cached). -/
def c5Env : Engine := ⟨fun _ _ => Except.error ⟨true, "unused"⟩⟩

/-- A wrapper state with "R" cached. -/
def c5St : State :=
  { sqlite := some 1
    initialized := false
    preparedStatements := [("R", c5Stmt)]
    retryCounter := []
    extensionsLoaded := false
    compileCount := 0 }

theorem c5_result_shape_normalization_witness :
    prepare c5Env c5St "R" = (Except.ok (some c5Stmt), c5St) ∧
    c5Stmt.reader = true ∧ c5Stmt.allResult = Except.ok [10, 20] ∧
    (exec c5Env true c5St "R" []).result = Except.ok ⟨[10, 20], none, none⟩ :=
  ⟨rfl, rfl, rfl,
    (c5_result_shape_normalization c5Env true c5St "R" [] c5Stmt c5St rfl).1 [10, 20] rfl rfl⟩

/-! ## Claim C6 -/

/-- C6: for a writer execution the insert-id field is
`insertIdOf lastInsertRowid`: the same unbounded integer whether the
engine reported a native number or an already-unbounded bigint, and
absent exactly when the engine reported `undefined` or `null`. -/
theorem c6_insert_id_coercion (env : Engine) (ready : Bool) (st : State) (sql : String)
    (ps : List SQLiteCompatibleType) (p : Stmt) (st₁ : State) (info : RunInfo)
    (h : prepare env st sql = (Except.ok (some p), st₁))
    (hr : p.reader = false) (hrun : p.runResult = Except.ok info) :
    (exec env ready st sql ps).result =
      Except.ok ⟨[], numAffected info.changes, insertIdOf info.lastInsertRowid⟩ ∧
    (∀ i, insertIdOf (JsRowid.big i) = some i) ∧
    (∀ n, insertIdOf (JsRowid.num n) = some n) ∧
    insertIdOf JsRowid.undef = none ∧
    insertIdOf JsRowid.null = none := by
  rw [exec_of_prepare_some env ready st sql ps p st₁ h]
  exact ⟨by simp [hr, hrun], fun i => rfl, fun n => rfl, rfl, rfl⟩

/-- A writer statement whose engine reports a bigint rowid 42. -/
def c6Stmt : Stmt := ⟨6, false, Except.ok [], Except.ok ⟨JsChanges.num 1, JsRowid.big 42⟩⟩

/-- An engine that is never consulted (the statement is cached). -/
def c6Env : Engine := ⟨fun _ _ => Except.error ⟨true, "unused"⟩⟩

/-- A wrapper state with "W" cached. -/
def c6St : State :=
  { sqlite := some 1
    initialized := false
    preparedStatements := [("W", c6Stmt)]
    retryCounter := []
    extensionsLoaded := false
    compileCount := 0 }

theorem c6_insert_id_coercion_witness :
    prepare c6Env c6St "W" = (Except.ok (some c6Stmt), c6St) ∧
    c6Stmt.reader = false ∧
    c6Stmt.runResult = Except.ok ⟨JsChanges.num 1, JsRowid.big 42⟩ ∧
    (exec c6Env true c6St "W" []).result = Except.ok ⟨[], some 1, some 42⟩ :=
  ⟨rfl, rfl, rfl,
    (c6_insert_id_coercion c6Env true c6St "W" [] c6Stmt c6St
      ⟨JsChanges.num 1, JsRowid.big 42⟩ rfl rfl rfl).1⟩

/-! ## Claim C8 -/

/-- The property that a statement's execution failures are `Error`
instances (what better-sqlite3 in fact throws). -/
def throwsErrors (p : Stmt) : Prop :=
  (∀ e, p.allResult = Except.error e → e.isError = true) ∧
  (∀ e, p.runResult = Except.error e → e.isError = true)

/-- C8: with an open handle, and assuming the native layer only throws
`Error` instances (compilation failures, and execution failures of
cached or freshly compiled statements), every error surfaced by
`exec` — a prepare failure after the retries exhaust or an execution
failure — carries the original SQL text appended to its message. -/
theorem c8_error_message_annotation (env : Engine) (ready : Bool) (st : State)
    (sql : String) (ps : List SQLiteCompatibleType) (hnd : Nat)
    (hs : st.sqlite = some hnd)
    (hcomp : ∀ i e, env.compile i sql = Except.error e → e.isError = true)
    (hcache : ∀ p, lookupA st.preparedStatements sql = some p → throwsErrors p)
    (hok : ∀ i p, env.compile i sql = Except.ok (some p) → throwsErrors p)
    (e : JsErr) (he : (exec env ready st sql ps).result = Except.error e) :
    ∃ base, e.message = base ++ " (query: " ++ sql ++ ")" := by
  rcases hres : prepare env st sql with ⟨r, st₁⟩
  cases r with
  | error eSurf =>
    rw [exec_of_prepare_error env ready st sql ps eSurf st₁ hres] at he
    have he' : eSurf = e := by simpa using he
    obtain ⟨i, ex, hcx, heq⟩ :=
      prepareAux_error_annotated env sql hnd 7 st st₁ eSurf hs
        (cMeasure_lt_seven (lookupA st.retryCounter sql)) hres
    subst he'
    rw [heq]
    have hie : ex.isError = true := hcomp i ex hcx
    exact ⟨ex.message, by simp [annotateErr, hie]⟩
  | ok o =>
    cases o with
    | none =>
      rw [exec_of_prepare_none env ready st sql ps st₁ hres] at he
      simp at he
    | some p =>
      have hgood : throwsErrors p := by
        obtain ⟨g1, g2, g3, g4⟩ := prepareAux_ok_some env sql 7 st st₁ p hres
        rcases g3 with hcl | ⟨i, hco⟩
        · exact hcache p hcl
        · exact hok i p hco
      rw [exec_of_prepare_some env ready st sql ps p st₁ hres] at he
      by_cases hr : p.reader = true
      · cases hall : p.allResult with
        | error ea =>
          simp [hr, hall] at he
          have hie : ea.isError = true := hgood.1 ea hall
          subst he
          exact ⟨ea.message, by simp [annotateErr, hie]⟩
        | ok rows =>
          simp [hr, hall] at he
      · have hr' : p.reader = false := by
          cases hb : p.reader
          · rfl
          · exact absurd hb hr
        cases hrun : p.runResult with
        | error er =>
          simp [hr', hrun] at he
          have hie : er.isError = true := hgood.2 er hrun
          subst he
          exact ⟨er.message, by simp [annotateErr, hie]⟩
        | ok info =>
          simp [hr', hrun] at he

/-- The `Error` value every compilation attempt of the C8 witness
engine throws. -/
def c8Err : JsErr := ⟨true, "boom"⟩

/-- An engine whose every compilation attempt throws `c8Err`. -/
def c8Env : Engine := ⟨fun _ _ => Except.error c8Err⟩

/-- A freshly opened wrapper. -/
def c8St : State := openDb initialState 1

theorem c8_error_message_annotation_witness :
    (exec c8Env true c8St "S" []).result = Except.error ⟨true, "boom (query: S)"⟩ ∧
    (∃ base, (JsErr.mk true "boom (query: S)").message = base ++ " (query: " ++ "S" ++ ")") := by
  refine ⟨rfl, ?_⟩
  refine c8_error_message_annotation c8Env true c8St "S" [] 1 rfl ?_ ?_ ?_
    ⟨true, "boom (query: S)"⟩ rfl
  · intro i e h
    have hh : c8Err = e := by simpa [c8Env] using h
    rw [← hh]
    rfl
  · intro p hp
    simp [c8St, openDb, initialState, lookupA] at hp
  · intro i p hp
    simp [c8Env] at hp

/-! ## Claim C9 -/

/-- Characterization of the modelled `fs.rm` retry loop: success holds
exactly when the lock clears within the retry budget, every wait uses
the fixed delay, and at most `r` delays are waited. -/
theorem rmRun_spec (locked : Nat → Bool) (delay : Nat) :
    ∀ (r a : Nat),
      ((rmRun locked delay a r).1 = Except.ok () ↔
        ∃ j, j ≤ r ∧ locked (a + j) = false) ∧
      (∀ d ∈ (rmRun locked delay a r).2, d = delay) ∧
      (rmRun locked delay a r).2.length ≤ r := by
  intro r
  induction r with
  | zero =>
    intro a
    by_cases h : locked a
    · simp [rmRun, h]
    · simp [rmRun, h]
  | succ r ih =>
    intro a
    by_cases h : locked a
    · simp only [rmRun, if_pos h]
      obtain ⟨ih1, ih2, ih3⟩ := ih (a + 1)
      refine ⟨?_, ?_, ?_⟩
      · rw [ih1]
        constructor
        · rintro ⟨j, hj, hl⟩
          refine ⟨j + 1, by omega, ?_⟩
          rw [show a + (j + 1) = a + 1 + j by omega]
          exact hl
        · rintro ⟨j, hj, hl⟩
          cases j with
          | zero =>
            rw [Nat.add_zero] at hl
            rw [hl] at h
            cases h
          | succ j' =>
            refine ⟨j', by omega, ?_⟩
            rw [show a + 1 + j' = a + (j' + 1) by omega]
            exact hl
      · intro d hd
        simp only [List.mem_cons] at hd
        rcases hd with rfl | hd
        · rfl
        · exact ih2 d hd
      · simp only [List.length_cons]
        omega
    · simp only [rmRun, if_neg h]
      refine ⟨?_, by simp, by simp⟩
      simp only [true_iff]
      exact ⟨0, by omega, by simpa using Bool.of_not_eq_true h⟩

/-- C9: `delete` closes the connection first — the state it leaves is
exactly `close`'s, so with a handle open (or an already-empty cache)
the statement cache is cleared and the handle released before removal
is attempted — and the removal runs with `force`, 5 retries and a
500ms fixed delay: it succeeds iff the lock clears within 5 retries,
waits the fixed delay at most 5 times, and fails only after all
6 attempts (the retries) are exhausted. -/
theorem c9_delete_closes_then_bounded_retries (locked : Nat → Bool) (st : State)
    (hpre : st.sqlite ≠ none ∨ st.preparedStatements = []) :
    (deleteDb locked st).1 = close st ∧
    (deleteDb locked st).1.preparedStatements = [] ∧
    (deleteDb locked st).1.sqlite = none ∧
    deleteRmOptions.maxRetries = 5 ∧
    deleteRmOptions.retryDelay = 500 ∧
    ((deleteDb locked st).2.1 = Except.ok () ↔ ∃ j, j ≤ 5 ∧ locked j = false) ∧
    (∀ d ∈ (deleteDb locked st).2.2, d = 500) ∧
    (deleteDb locked st).2.2.length ≤ 5 := by
  obtain ⟨h1, h2, h3⟩ := rmRun_spec locked 500 5 0
  have hclear : (close st).preparedStatements = [] ∧ (close st).sqlite = none := by
    cases hx : st.sqlite with
    | none =>
      rcases hpre with hp | hp
      · exact absurd hx hp
      · simp [close, hx, hp]
    | some hnd => simp [close, hx]
  refine ⟨rfl, hclear.1, hclear.2, rfl, rfl, ?_, ?_, ?_⟩
  · have : (deleteDb locked st).2.1 = (rmRun locked 500 0 5).1 := rfl
    rw [this, h1]
    constructor
    · rintro ⟨j, hj, hl⟩
      exact ⟨j, hj, by simpa using hl⟩
    · rintro ⟨j, hj, hl⟩
      exact ⟨j, hj, by simpa using hl⟩
  · intro d hd
    exact h2 d hd
  · exact h3

/-- A lock that stays contended for the first three attempts. -/
def c9Locked : Nat → Bool := fun i => decide (i < 3)

theorem c9_delete_closes_then_bounded_retries_witness :
    ((openDb initialState 1).sqlite ≠ none ∨
      (openDb initialState 1).preparedStatements = []) ∧
    ((deleteDb c9Locked (openDb initialState 1)).1 = close (openDb initialState 1) ∧
      (deleteDb c9Locked (openDb initialState 1)).1.preparedStatements = [] ∧
      (deleteDb c9Locked (openDb initialState 1)).1.sqlite = none ∧
      deleteRmOptions.maxRetries = 5 ∧
      deleteRmOptions.retryDelay = 500 ∧
      ((deleteDb c9Locked (openDb initialState 1)).2.1 = Except.ok () ↔
        ∃ j, j ≤ 5 ∧ c9Locked j = false) ∧
      (∀ d ∈ (deleteDb c9Locked (openDb initialState 1)).2.2, d = 500) ∧
      (deleteDb c9Locked (openDb initialState 1)).2.2.length ≤ 5) :=
  ⟨Or.inl (by decide),
    c9_delete_closes_then_bounded_retries c9Locked (openDb initialState 1)
      (Or.inl (by decide))⟩

/-! ## Claim C10 -/

/-- C10: `close` leaves the extension flag and the per-SQL retry
counters untouched (it only clears the statement cache and releases
the handle), so after a close followed by a reopen, a flag that was
already true makes every later `exec` skip the extension load for the
new handle. -/
theorem c10_close_frame (st : State) (env : Engine) (ready : Bool) (sql : String)
    (ps : List SQLiteCompatibleType) (n : Nat) :
    (close st).extensionsLoaded = st.extensionsLoaded ∧
    (close st).retryCounter = st.retryCounter ∧
    (st.extensionsLoaded = true →
      (exec env ready (openDb (close st) n) sql ps).loads = [] ∧
      (exec env ready (openDb (close st) n) sql ps).state.extensionsLoaded = true) := by
  refine ⟨?_, ?_, ?_⟩
  · cases hx : st.sqlite <;> simp [close, hx]
  · cases hx : st.sqlite <;> simp [close, hx]
  · intro hE
    have hE' : (openDb (close st) n).extensionsLoaded = true := by
      cases hx : st.sqlite <;> simp [close, openDb, hx, hE]
    exact exec_loads_of_flag env ready (openDb (close st) n) sql ps hE'

/-- An engine that always fails to compile; irrelevant to the flag. -/
def c10Env : Engine := ⟨fun _ _ => Except.error ⟨true, "x"⟩⟩

/-- A wrapper state with the extension flag already set. -/
def c10St : State :=
  { sqlite := some 3
    initialized := false
    preparedStatements := []
    retryCounter := [("S", 2)]
    extensionsLoaded := true
    compileCount := 5 }

theorem c10_close_frame_witness :
    c10St.extensionsLoaded = true ∧
    (close c10St).retryCounter = c10St.retryCounter ∧
    (exec c10Env true (openDb (close c10St) 7) "S" []).loads = [] ∧
    (exec c10Env true (openDb (close c10St) 7) "S" []).state.extensionsLoaded = true :=
  ⟨rfl, (c10_close_frame c10St c10Env true "S" [] 7).2.1,
    ((c10_close_frame c10St c10Env true "S" [] 7).2.2 rfl).1,
    ((c10_close_frame c10St c10Env true "S" [] 7).2.2 rfl).2⟩

end SQLite
